import Mathlib

/-!
Verification of the `danderssonsario/oauth-openid-graphql-rest` repository:
a shallow embedding, in Lean, of the parts of the code the specification's
claims are about, together with theorems settling those claims.

Embedded components:
* JavaScript number semantics needed by `ResourceService.fetchActivities`
  (`NaN`, `Infinity`, `parseInt`, `Math.ceil` of a division, `<=`);
* `ResourceService.fetchActivities` and the `ResourceController` actions
  (`src/controllers/ResourceController.js`, `src/services/ResourceService.js`),
  with the outbound HTTP call abstracted as an oracle from the request
  parameters to a response;
* `AuthService.authorizeUser` and `AuthController.authorize`
  (`src/controllers/AuthController.js`, `src/services/AuthService.js`);
* the `IoCContainer` dependency-injection container
  (`src/util/IoCContainer.js`): registration, lifetimes, the scoped /
  singleton caches and instance construction, with the call stack modelled
  by fuel.
-/

namespace OAuthApp

/-! ## JavaScript numbers, as far as `fetchActivities` needs them

All numbers reaching `fetchActivities` are integers, `NaN` (from
`parseInt` on a missing query parameter) or `Infinity` (from division by
zero); we embed exactly those. -/

/-- A JavaScript number as it can occur in the activities pagination code:
an integer, `NaN`, or positive `Infinity`. -/
inductive JNum where
  | nan : JNum
  | inf : JNum
  | int : Int → JNum
deriving DecidableEq, Repr

/-- Ceiling of the exact rational `a / b` for integers, `b ≠ 0`:
`ceil x = -floor (-x)`. -/
def ceilDiv (a b : Int) : Int := -(Int.fdiv (-a) b)

/-- JavaScript `Math.ceil(a / b)` where the dividend `a` is an integer
constant (in the source, the literal `120`) and `b` is a `JNum`.
`a / NaN = NaN`, `a / Infinity = 0`, `a / 0 = Infinity` for `a > 0`
(a non-positive dividend never occurs in the source: the dividend is the
constant `totalActivities = 120`). -/
def jsCeilDiv (a : Int) (b : JNum) : JNum :=
  match b with
  | .nan => .nan
  | .inf => .int 0
  | .int l => if l = 0 then (if a > 0 then .inf else .nan) else .int (ceilDiv a l)

/-- JavaScript `<=` on numbers: any comparison with `NaN` is false;
`Infinity` is above every integer. -/
def jle : JNum → JNum → Bool
  | .nan, _ => false
  | _, .nan => false
  | .inf, .inf => true
  | .inf, .int _ => false
  | .int _, .inf => true
  | .int a, .int b => a ≤ b

/-- Leading decimal digits of a character list. -/
def leadingDigits (cs : List Char) : List Char := cs.takeWhile Char.isDigit

/-- Numeric value of a digit list. -/
def digitsToNat (ds : List Char) : Nat :=
  ds.foldl (fun a c => a * 10 + (c.toNat - 48)) 0

/-- Leading signed-integer parse of a character list, JavaScript
`parseInt` style: an optional sign followed by digits; anything after the
digits is ignored; no digits at all gives `NaN`. -/
def parseIntSigned : List Char → JNum
  | '-' :: rest =>
    match leadingDigits rest with
    | [] => .nan
    | ds => .int (-(digitsToNat ds : Int))
  | '+' :: rest =>
    match leadingDigits rest with
    | [] => .nan
    | ds => .int (digitsToNat ds)
  | cs =>
    match leadingDigits cs with
    | [] => .nan
    | ds => .int (digitsToNat ds)

/-- JavaScript `parseInt(x)` where `x` is a query-string parameter: either
a string, or `undefined` when the parameter is absent.
`parseInt(undefined)` coerces the argument to the string `"undefined"`,
which parses to `NaN`. -/
def parseIntJS : Option String → JNum
  | none => .nan
  | some s => parseIntSigned (s.data.dropWhile Char.isWhitespace)

/-! ## `ResourceService.fetchActivities` -/

/-- The session's `user` record: the token payload stored by the OAuth
callback, `{ access_token, id_token }`. -/
structure TokensRecord where
  access_token : String
  id_token : String
deriving DecidableEq, Repr

/-- The parameters of the outbound `GET https://gitlab.lnu.se/api/v4/events`
call issued by `fetchActivities`: the bearer token from the session user
and the `per_page` / `page` query parameters. -/
structure EventsRequest where
  bearer : String
  per_page : JNum
  page : JNum
deriving DecidableEq, Repr

/-- The view model returned by `fetchActivities`:
`{ activities, page, totalPages, limit }`. -/
structure ActivitiesVM (α : Type) where
  activities : List α
  page : JNum
  totalPages : JNum
  limit : JNum
deriving DecidableEq, Repr

/-- Errors of the JavaScript code: an error thrown by the HTTP/GraphQL
client (network failure or non-2xx response), the `new HttpError(error)`
wrapper the services apply, and the `convertToHttpError(error)`
normalization the controllers apply. -/
inductive JsErr where
  | axios : Nat → String → JsErr
  | httpErrorOf : JsErr → JsErr
  | converted : JsErr → JsErr
deriving DecidableEq, Repr

/-- Modelled from the spec: `convertToHttpError` is defined in
`src/lib/util.js`, which is not part of the source snapshot (only its
importers are). Per the spec, a failure is "wrapped into a uniform error
object carrying an HTTP status code and message"; we model the
normalization as an injective wrapper, which is all the claims depend on. -/
def convertToHttpError (e : JsErr) : JsErr := .converted e

/-- The `per_page` / `page` parameters `fetchActivities` sends to the
events endpoint: `per_page` is the limit; the page is the requested page
clamped by `page <= totalPages ? page : totalPages` against
`totalPages = Math.ceil(120 / limit)`. -/
def activitiesRequest (user : TokensRecord) (page limit : JNum) : EventsRequest :=
  let totalPages := jsCeilDiv 120 limit
  { bearer := user.access_token
    per_page := limit
    page := if jle page totalPages then page else totalPages }

/-- Embedding of `ResourceService.fetchActivities(user, page = 1, limit = 20)`.
The default parameter values apply exactly when the corresponding argument
is absent (`undefined`), hence the `Option JNum` arguments. The outbound
`axios.get` is abstracted as the oracle `events`; a thrown client error is
wrapped in `HttpError` by the `catch`. On success the view model carries
the response data together with the *raw* `page` argument, `totalPages`
and `limit`. -/
def fetchActivities {α : Type} (events : EventsRequest → Except JsErr (List α))
    (user : TokensRecord) (pageArg limitArg : Option JNum) :
    Except JsErr (ActivitiesVM α) :=
  let page := pageArg.getD (.int 1)
  let limit := limitArg.getD (.int 20)
  let totalPages := jsCeilDiv 120 limit
  match events (activitiesRequest user page limit) with
  | .ok data => .ok { activities := data, page := page, totalPages := totalPages, limit := limit }
  | .error e => .error (.httpErrorOf e)

/-- The service call made by `ResourceController.activities`:
`fetchActivities(req.session.user, parseInt(req.query.page), parseInt(req.query.limit))`.
Both arguments are always supplied (as `parseInt` results, possibly `NaN`),
never left `undefined`. -/
def controllerActivitiesCall {α : Type} (events : EventsRequest → Except JsErr (List α))
    (user : TokensRecord) (qpage qlimit : Option String) :
    Except JsErr (ActivitiesVM α) :=
  fetchActivities events user (some (parseIntJS qpage)) (some (parseIntJS qlimit))

/-! ## Controllers: promises, `await`, and the try/catch pattern

Every controller action is an `async (req, res, next)` method whose body is
`try { ... } catch (error) { next(convertToHttpError(error)) }`. The decisive
semantic point is whether a service call inside the `try` block is `await`ed:
an `await`ed rejection is rethrown into the enclosing `try`/`catch`, while a
call made *without* `await` merely produces a pending promise — the call
itself never throws in the caller's frame, and a later rejection of that
promise bypasses the `catch` entirely (an unhandled promise rejection). -/

/-- A pending promise: carries the async computation's eventual outcome,
which the current frame has not observed. -/
structure JsPromise (α : Type) where
  result : Except JsErr α
deriving Repr

/-- Evaluating one expression inside a `try` block: it either produces a
value or throws into the enclosing `catch`. -/
inductive TryStep (α : Type) where
  | value : α → TryStep α
  | thrown : JsErr → TryStep α
deriving Repr

/-- Calling an async method without `await`: never throws in the caller's
frame; evaluates to the pending promise. -/
def callNoAwait {α : Type} (r : Except JsErr α) : TryStep (JsPromise α) := .value ⟨r⟩

/-- Calling an async method with `await`: a rejection is rethrown in the
caller's frame. -/
def callAwait {α : Type} (r : Except JsErr α) : TryStep α :=
  match r with
  | .ok a => .value a
  | .error e => .thrown e

/-- The eventual rejection of a pending promise that no frame ever awaits:
it surfaces as an unhandled promise rejection, not as a caught error. -/
def rejectionOf {α : Type} (p : JsPromise α) : Option JsErr :=
  match p.result with
  | .ok _ => none
  | .error e => some e

/-- Observable outcome of one controller action: which view was rendered
(and nothing else of the render), where the response was redirected, the
error handed to `next()` if any, and any unhandled promise rejection left
behind. -/
structure ActionOutcome where
  rendered : Option String
  redirected : Option String
  nextErr : Option JsErr
  unhandledRejection : Option JsErr
deriving DecidableEq, Repr

/-- The Express session, as the code uses it: `req.session.user` holds the
token payload once authenticated. -/
structure Session where
  user : Option TokensRecord
deriving DecidableEq, Repr

/-- Embedding of `AuthService.authorizeUser(code)`: a single awaited `axios.post` to the
provider's token endpoint (which throws on network failure or a non-2xx
response), abstracted as the oracle outcome `tokenEndpoint`; on success the
response data is returned, on failure the thrown error is wrapped in
`HttpError` and rethrown. -/
def authorizeUser (tokenEndpoint : Except JsErr TokensRecord) :
    Except JsErr TokensRecord :=
  match tokenEndpoint with
  | .ok d => .ok d
  | .error e => .error (.httpErrorOf e)

/-- Embedding of `AuthController.authorize(req, res, next)`:
`req.session.user = await this.#service.authorizeUser(req.query.code); res.redirect('/home')`
inside the try/catch. The service call is `await`ed, so a rejection is
thrown before the session assignment, the session is left unchanged and the
error goes to `next(convertToHttpError(error))`. -/
def AuthController_authorize (svc : Except JsErr TokensRecord) (session : Session) :
    Session × ActionOutcome :=
  match callAwait svc with
  | .value payload =>
    ({ user := some payload },
     { rendered := none, redirected := some "/home", nextErr := none,
       unhandledRejection := none })
  | .thrown e =>
    (session,
     { rendered := none, redirected := none, nextErr := some (convertToHttpError e),
       unhandledRejection := none })

/-- Embedding of `ResourceController.profile`:
`const profile = this.#service.fetchProfile(req.session.user); res.render('profile', profile)`.
The service call is *not* `await`ed: `profile` is a pending promise, the
render proceeds with it, and the `catch` branch — faithfully present below —
is unreachable for service failures. -/
def ResourceController_profile {α : Type} (svc : Except JsErr α) : ActionOutcome :=
  match callNoAwait svc with
  | .value p =>
    { rendered := some "profile", redirected := none, nextErr := none,
      unhandledRejection := rejectionOf p }
  | .thrown e =>
    { rendered := none, redirected := none, nextErr := some (convertToHttpError e),
      unhandledRejection := none }

/-- Embedding of `ResourceController.activities`: same non-`await`ed pattern as
`profile`, rendering the `activities` view with the pending promise of
`fetchActivities(req.session.user, parseInt(req.query.page), parseInt(req.query.limit))`. -/
def ResourceController_activities {α : Type} (svc : Except JsErr α) : ActionOutcome :=
  match callNoAwait svc with
  | .value p =>
    { rendered := some "activities", redirected := none, nextErr := none,
      unhandledRejection := rejectionOf p }
  | .thrown e =>
    { rendered := none, redirected := none, nextErr := some (convertToHttpError e),
      unhandledRejection := none }

/-- Embedding of `ResourceController.groups`: same non-`await`ed pattern, rendering the
`groups` view with the pending promise of `fetchGroups(req.session.user)`. -/
def ResourceController_groups {α : Type} (svc : Except JsErr α) : ActionOutcome :=
  match callNoAwait svc with
  | .value p =>
    { rendered := some "groups", redirected := none, nextErr := none,
      unhandledRejection := rejectionOf p }
  | .thrown e =>
    { rendered := none, redirected := none, nextErr := some (convertToHttpError e),
      unhandledRejection := none }

/-! ## The `IoCContainer`

`src/util/IoCContainer.js`. Registrations live in the `#services` map;
singleton instances in the `#singletons` map; scoped instances in the
ambient per-request `express-http-context` store under the key
`ServiceLifetime.Scoped.<name>`. Construction (`#createInstance`) either
invokes an arrow-function factory with the bound resolver, or resolves the
declared dependencies in order and invokes the definition with `new`.

Modelling choices:
* JavaScript values are first-order `Value`s; a constructed object records
  a creation serial number (its identity), its class name and the
  constructor arguments it was invoked with.
* factory bodies are a small first-order syntax (`FactoryBody`) covering a
  constant result, a fresh object literal, and a pull through the resolver
  argument — the shapes the container's factories can take that the claims
  distinguish;
* the `Map.set` overwrite is modelled by prepending, which is
  observationally equal for `get` / `has`;
* the call stack is modelled by fuel: `resolve` re-enters itself through
  construction, and running out of fuel is the stack overflow the
  documented circular-dependency limitation produces;
* `constructions` is a ghost counter incremented exactly when a definition
  is invoked (factory call or `new`), making "the service was constructed
  again" observable. -/

/-- A JavaScript value held by the container: a constructed object (with
its creation serial, class name and constructor arguments), or a
primitive. -/
inductive Value where
  | obj : Nat → String → List Value → Value
  | vnum : Int → Value
  | vbool : Bool → Value
  | vnull : Value
  | vstr : String → Value

/-- JavaScript truthiness of a `Value`: objects are truthy; `null`,
`false`, `0` and the empty string are falsy. -/
def truthy : Value → Bool
  | .obj _ _ _ => true
  | .vnum n => n ≠ 0
  | .vbool b => b
  | .vnull => false
  | .vstr s => s ≠ ""

/-- The body of an arrow-function factory definition: return a constant
value, return a fresh object literal, or pull a dependency through the
resolver the container passes in (`(resolve) => resolve(name)`). -/
inductive FactoryBody where
  | const : Value → FactoryBody
  | fresh : FactoryBody
  | resolveName : String → FactoryBody

/-- A service definition: a class constructor (named), or an arrow function
with the given number of parameters and the given body. -/
inductive Definition where
  | ctor : String → Definition
  | arrow : Nat → FactoryBody → Definition

/-- The `isArrowFunction` check `#register` performs:
`typeof definition === 'function' && definition.prototype === undefined &&
arrowFunctionRegex.test(definition.toString())`. A class has a prototype,
so only arrow functions pass, and the regex accepts exactly the
zero-parameter and one-parameter arrow forms. -/
def isArrowFn : Definition → Bool
  | .ctor _ => false
  | .arrow n _ => n ≤ 1

/-- The `ServiceLifetime` enum of the container. -/
inductive ServiceLifetime where
  | Scoped
  | Singleton
  | Transient
deriving DecidableEq, Repr

/-- One `#services` entry, as `#register` stores it:
`{ definition, dependencies, serviceLifetime, isArrowFunction }`. -/
structure ServiceReg where
  definition : Definition
  dependencies : List String
  serviceLifetime : Option ServiceLifetime
  isArrowFunction : Bool

/-- The registration record `#register(name, definition, options)` builds. -/
def mkReg (d : Definition) (deps : List String) (life : Option ServiceLifetime) :
    ServiceReg :=
  { definition := d, dependencies := deps, serviceLifetime := life,
    isArrowFunction := isArrowFn d }

/-- Embedding of `Map.get`: the value stored under a key, if present. With the
prepend model of `Map.set`, the first matching entry is the current one. -/
def mapGet {α : Type} (m : List (String × α)) (k : String) : Option α :=
  (m.find? (fun p => p.1 == k)).map (fun p => p.2)

/-- Embedding of `Map.set`: store a value under a key, overwriting any previous entry.
Prepending is observationally equal for `get` / `has`. -/
def mapSet {α : Type} (m : List (String × α)) (k : String) (v : α) :
    List (String × α) :=
  (k, v) :: m

/-- The container's mutable state, together with the ambient
`express-http-context` request context: the `#services` and `#singletons`
maps, the per-request scoped store (keyed by request identifier and key
string), the identifier of the request currently being served, the next
object creation serial, and the ghost construction counter. -/
structure ContainerState where
  services : List (String × ServiceReg)
  singletons : List (String × Value)
  httpCtx : List ((Nat × String) × Value)
  currentRequest : Nat
  nextId : Nat
  constructions : Nat

/-- Errors thrown during resolution: the `Service '<name>' not found.`
error, stack exhaustion (the fate of the documented unbounded recursion on
circular dependencies), and the `TypeError` of applying `new` to an arrow
function. -/
inductive RErr where
  | notFound : String → RErr
  | stackOverflow : RErr
  | typeError : RErr
deriving DecidableEq, Repr

/-- Outcome of a resolution: a value and the updated state, or a thrown
error. -/
abbrev SOut := Except RErr (Value × ContainerState)

/-- Embedding of `httpContext.get(k)` as seen by request `r`. -/
def ctxGetAt (st : ContainerState) (r : Nat) (k : String) : Option Value :=
  (st.httpCtx.find? (fun p => p.1.1 == r && p.1.2 == k)).map (fun p => p.2)

/-- Embedding of `httpContext.get(k)` in the ambient (current) request context. -/
def ctxGet (st : ContainerState) (k : String) : Option Value :=
  ctxGetAt st st.currentRequest k

/-- Embedding of `httpContext.set(k, v)` in the ambient (current) request context. -/
def ctxSet (st : ContainerState) (k : String) (v : Value) : ContainerState :=
  { st with httpCtx := ((st.currentRequest, k), v) :: st.httpCtx }

/-- The `express-http-context` key `#resolveScopedInstance` uses for a
service name. -/
def scopedKey (name : String) : String := "ServiceLifetime.Scoped." ++ name

/-- Evaluation of an arrow-function factory's body.
`#createInstance` invokes the factory as
`service.definition(this.resolve.bind(this))`; the bound resolver is the
`rec` argument, which a `resolveName` body applies. -/
def evalBody (rec : ContainerState → String → SOut) (st : ContainerState) :
    FactoryBody → SOut
  | .const v => .ok (v, st)
  | .fresh => .ok (.obj st.nextId "Object" [], { st with nextId := st.nextId + 1 })
  | .resolveName n => rec st n

/-- Embedding of `service.dependencies.map((dependency) => this.resolve(dependency))`:
resolve each declared dependency name, left to right, threading the
container state; the first failure propagates. -/
def resolveDeps (rec : ContainerState → String → SOut) (st : ContainerState) :
    List String → Except RErr (List Value × ContainerState)
  | [] => .ok ([], st)
  | d :: ds =>
    match rec st d with
    | .error e => .error e
    | .ok (v, st') =>
      match resolveDeps rec st' ds with
      | .error e => .error e
      | .ok (vs, st'') => .ok (v :: vs, st'')

/-- Embedding of `#createInstance(service)`: if `service.isArrowFunction`, invoke the
definition with the bound resolver; otherwise resolve the declared
dependencies in order and invoke the definition with `new` and the
resolved values as positional arguments (`new` applied to an arrow
function throws a `TypeError`). The ghost `constructions` counter is
incremented exactly when the definition is invoked. -/
def createInstance (rec : ContainerState → String → SOut) (st : ContainerState)
    (service : ServiceReg) : SOut :=
  if service.isArrowFunction then
    match service.definition with
    | .arrow _ body => evalBody rec { st with constructions := st.constructions + 1 } body
    | .ctor _ => .error .typeError
  else
    match resolveDeps rec st service.dependencies with
    | .error e => .error e
    | .ok (args, st1) =>
      match service.definition with
      | .ctor cname =>
        .ok (.obj st1.nextId cname args,
             { st1 with nextId := st1.nextId + 1, constructions := st1.constructions + 1 })
      | .arrow _ _ => .error .typeError

/-- Embedding of `#resolveSingletonInstance(service, name)`: if `#singletons` has no
entry for the name (`Map.has`, not truthiness), create the instance and
store it; then return the stored instance. -/
def resolveSingletonInstance (rec : ContainerState → String → SOut)
    (st : ContainerState) (service : ServiceReg) (name : String) : SOut :=
  match mapGet st.singletons name with
  | some v => .ok (v, st)
  | none =>
    match createInstance rec st service with
    | .error e => .error e
    | .ok (v, st') => .ok (v, { st' with singletons := mapSet st'.singletons name v })

/-- Embedding of `#resolveScopedInstance(service, name)`: look the instance up in the
ambient request context; `if (!instance)` — absence *or any falsy cached
value* — create a new instance and store it; return it. -/
def resolveScopedInstance (rec : ContainerState → String → SOut)
    (st : ContainerState) (service : ServiceReg) (name : String) : SOut :=
  match ctxGet st (scopedKey name) with
  | some v =>
    if truthy v then .ok (v, st)
    else
      match createInstance rec st service with
      | .error e => .error e
      | .ok (v', st') => .ok (v', ctxSet st' (scopedKey name) v')
  | none =>
    match createInstance rec st service with
    | .error e => .error e
    | .ok (v', st') => .ok (v', ctxSet st' (scopedKey name) v')

/-- Embedding of `resolve(name)`: look the registration up in `#services` (a stored
registration is always an object, hence truthy, so `!service` detects
exactly absence) and throw `Service '<name>' not found.` if absent;
dispatch on the registered lifetime — `Singleton` and `Scoped` to their
caches, anything else (`Transient`, or an undefined lifetime) straight to
`#createInstance`. The fuel argument models the call stack: construction
re-enters `resolve` one stack frame deeper. -/
def resolve (fuel : Nat) (st : ContainerState) (name : String) : SOut :=
  match mapGet st.services name with
  | none => .error (.notFound name)
  | some service =>
    match fuel with
    | 0 => .error .stackOverflow
    | Nat.succ f =>
      if service.serviceLifetime = some .Singleton then
        resolveSingletonInstance (fun s n => resolve f s n) st service name
      else if service.serviceLifetime = some .Scoped then
        resolveScopedInstance (fun s n => resolve f s n) st service name
      else
        createInstance (fun s n => resolve f s n) st service

/-- Embedding of `#register(name, definition, { dependencies, serviceLifetime })`:
store the registration (computing `isArrowFunction`), overwriting any
previous entry under the name. -/
def registerWith (st : ContainerState) (name : String) (d : Definition)
    (deps : List String) (life : ServiceLifetime) : ContainerState :=
  { st with services := mapSet st.services name (mkReg d deps (some life)) }

/-- Embedding of `registerScoped(name, definition, dependencies = [])`. -/
def registerScoped (st : ContainerState) (name : String) (d : Definition)
    (deps : List String) : ContainerState :=
  registerWith st name d deps .Scoped

/-- Embedding of `registerSingleton(name, definition, dependencies = [])`. -/
def registerSingleton (st : ContainerState) (name : String) (d : Definition)
    (deps : List String) : ContainerState :=
  registerWith st name d deps .Singleton

/-- Embedding of `registerTransient(name, definition, dependencies = [])`. -/
def registerTransient (st : ContainerState) (name : String) (d : Definition)
    (deps : List String) : ContainerState :=
  registerWith st name d deps .Transient

/-- A freshly constructed container (`new IoCContainer()`), before any
request: both maps empty, the ambient context empty. -/
def emptyContainer : ContainerState :=
  { services := [], singletons := [], httpCtx := [], currentRequest := 0,
    nextId := 0, constructions := 0 }

/-- Switching the ambient request context: `express-http-context` gives
each simulated request its own context, identified here by a number. -/
def inRequest (st : ContainerState) (r : Nat) : ContainerState :=
  { st with currentRequest := r }

/-! ## Map and context lemmas -/

theorem mapGet_set_self {α : Type} (m : List (String × α)) (k : String) (v : α) :
    mapGet (mapSet m k v) k = some v := by
  simp [mapGet, mapSet, List.find?]

theorem mapGet_set_ne {α : Type} (m : List (String × α)) (k k' : String) (v : α)
    (h : k' ≠ k) : mapGet (mapSet m k v) k' = mapGet m k' := by
  have hb : (k == k') = false := by
    simp only [beq_eq_false_iff_ne]
    exact Ne.symm h
  simp [mapGet, mapSet, List.find?, hb]

theorem ctxGet_ctxSet_self (st : ContainerState) (k : String) (v : Value) :
    ctxGet (ctxSet st k v) k = some v := by
  simp [ctxGet, ctxGetAt, ctxSet, List.find?]

theorem ctxGetAt_ctxSet_ne_req (st : ContainerState) (k : String) (v : Value)
    (r : Nat) (k' : String) (h : r ≠ st.currentRequest) :
    ctxGetAt (ctxSet st k v) r k' = ctxGetAt st r k' := by
  have hb : (st.currentRequest == r) = false := by
    simp only [beq_eq_false_iff_ne]
    exact Ne.symm h
  simp [ctxGetAt, ctxSet, List.find?, hb]

/-! ## What a successful resolution preserves

`Pres st st'` records the state components no resolution step can break:
the registration table is never written during resolution, the ambient
request never changes, the object serial counter never decreases, and the
scoped caches of *other* requests are untouched. -/

/-- State components preserved by every successful resolution step. -/
structure Pres (st st' : ContainerState) : Prop where
  services_eq : st'.services = st.services
  request_eq : st'.currentRequest = st.currentRequest
  nextId_le : st.nextId ≤ st'.nextId
  other_ctx : ∀ r k, r ≠ st.currentRequest → ctxGetAt st' r k = ctxGetAt st r k

theorem Pres.refl (st : ContainerState) : Pres st st :=
  ⟨rfl, rfl, Nat.le_refl _, fun _ _ _ => rfl⟩

theorem Pres.trans {a b c : ContainerState} (h1 : Pres a b) (h2 : Pres b c) :
    Pres a c := by
  refine ⟨h2.services_eq.trans h1.services_eq,
          h2.request_eq.trans h1.request_eq,
          Nat.le_trans h1.nextId_le h2.nextId_le, ?_⟩
  intro r k hr
  have hr' : r ≠ b.currentRequest := by rw [h1.request_eq]; exact hr
  exact (h2.other_ctx r k hr').trans (h1.other_ctx r k hr)

/-- A state change that only touches `singletons`, `nextId` (upward) or
`constructions`, leaving `httpCtx`, `services` and `currentRequest` alone,
is a `Pres` step. -/
theorem pres_of_parts {st st' : ContainerState}
    (hs : st'.services = st.services) (hr : st'.currentRequest = st.currentRequest)
    (hn : st.nextId ≤ st'.nextId) (hc : st'.httpCtx = st.httpCtx) : Pres st st' := by
  refine ⟨hs, hr, hn, ?_⟩
  intro r k _
  unfold ctxGetAt
  rw [hc]

theorem pres_ctxSet (st : ContainerState) (k : String) (v : Value) :
    Pres st (ctxSet st k v) :=
  ⟨rfl, rfl, Nat.le_refl _, fun r k' hr => ctxGetAt_ctxSet_ne_req st k v r k' hr⟩

/-- A resolver respecting `Pres` on success. -/
def PresRec (rec : ContainerState → String → SOut) : Prop :=
  ∀ st n v st', rec st n = .ok (v, st') → Pres st st'

theorem evalBody_pres {rec : ContainerState → String → SOut} (hrec : PresRec rec)
    (st : ContainerState) (b : FactoryBody) {v : Value} {st' : ContainerState}
    (h : evalBody rec st b = .ok (v, st')) : Pres st st' := by
  cases b with
  | const w =>
    simp only [evalBody] at h
    cases h
    exact Pres.refl st
  | fresh =>
    simp only [evalBody] at h
    cases h
    exact pres_of_parts rfl rfl (Nat.le_succ _) rfl
  | resolveName n =>
    exact hrec st n v st' h

theorem resolveDeps_pres {rec : ContainerState → String → SOut} (hrec : PresRec rec) :
    ∀ (deps : List String) (st : ContainerState) {vs : List Value}
      {st' : ContainerState}, resolveDeps rec st deps = .ok (vs, st') → Pres st st' := by
  intro deps
  induction deps with
  | nil =>
    intro st vs st' h
    simp only [resolveDeps] at h
    cases h
    exact Pres.refl st
  | cons d ds ih =>
    intro st vs st' h
    simp only [resolveDeps] at h
    split at h
    · cases h
    · rename_i v1 st1 hd
      split at h
      · cases h
      · rename_i vs2 st2 hds
        cases h
        exact (hrec st d v1 st1 hd).trans (ih st1 hds)

theorem createInstance_pres {rec : ContainerState → String → SOut} (hrec : PresRec rec)
    (st : ContainerState) (svc : ServiceReg) {v : Value} {st' : ContainerState}
    (h : createInstance rec st svc = .ok (v, st')) : Pres st st' := by
  unfold createInstance at h
  split at h
  · split at h
    · refine Pres.trans ?_ (evalBody_pres hrec _ _ h)
      exact pres_of_parts rfl rfl (Nat.le_refl _) rfl
    · cases h
  · split at h
    · cases h
    · rename_i args st1 hds
      split at h
      · cases h
        exact Pres.trans (resolveDeps_pres hrec svc.dependencies st hds)
          (pres_of_parts rfl rfl (Nat.le_succ _) rfl)
      · cases h

theorem resolveSingletonInstance_pres {rec : ContainerState → String → SOut}
    (hrec : PresRec rec) (st : ContainerState) (svc : ServiceReg) (name : String)
    {v : Value} {st' : ContainerState}
    (h : resolveSingletonInstance rec st svc name = .ok (v, st')) : Pres st st' := by
  unfold resolveSingletonInstance at h
  split at h
  · cases h
    exact Pres.refl st
  · split at h
    · cases h
    · rename_i v1 st1 hci
      cases h
      refine Pres.trans (createInstance_pres hrec st svc hci) ?_
      exact pres_of_parts rfl rfl (Nat.le_refl _) rfl

theorem resolveScopedInstance_pres {rec : ContainerState → String → SOut}
    (hrec : PresRec rec) (st : ContainerState) (svc : ServiceReg) (name : String)
    {v : Value} {st' : ContainerState}
    (h : resolveScopedInstance rec st svc name = .ok (v, st')) : Pres st st' := by
  unfold resolveScopedInstance at h
  split at h
  · split at h
    · cases h
      exact Pres.refl st
    · split at h
      · cases h
      · rename_i v1 st1 hci
        cases h
        exact Pres.trans (createInstance_pres hrec st svc hci) (pres_ctxSet _ _ _)
  · split at h
    · cases h
    · rename_i v1 st1 hci
      cases h
      exact Pres.trans (createInstance_pres hrec st svc hci) (pres_ctxSet _ _ _)

/-- Unfolding `resolve` at positive fuel once the registration is found. -/
theorem resolve_succ_found (f : Nat) (st : ContainerState) (name : String)
    (svc : ServiceReg) (hs : mapGet st.services name = some svc) :
    resolve (f + 1) st name =
      (if svc.serviceLifetime = some ServiceLifetime.Singleton then
        resolveSingletonInstance (fun s n => resolve f s n) st svc name
      else if svc.serviceLifetime = some ServiceLifetime.Scoped then
        resolveScopedInstance (fun s n => resolve f s n) st svc name
      else createInstance (fun s n => resolve f s n) st svc) := by
  conv_lhs => unfold resolve
  rw [hs]

/-- Resolving an unregistered name throws the not-found error, at any
stack depth. -/
theorem resolve_notFound (fuel : Nat) (st : ContainerState) (name : String)
    (h : mapGet st.services name = none) :
    resolve fuel st name = .error (.notFound name) := by
  unfold resolve
  rw [h]

theorem resolve_pres : ∀ (fuel : Nat), PresRec (fun s n => resolve fuel s n) := by
  intro fuel
  induction fuel with
  | zero =>
    intro st n v st' h
    simp only at h
    unfold resolve at h
    split at h
    · cases h
    · cases h
  | succ f ih =>
    intro st n v st' h
    simp only at h
    cases hs : mapGet st.services n with
    | none =>
      rw [resolve_notFound (f + 1) st n hs] at h
      cases h
    | some svc =>
      rw [resolve_succ_found f st n svc hs] at h
      split at h
      · exact resolveSingletonInstance_pres ih st svc n h
      · split at h
        · exact resolveScopedInstance_pres ih st svc n h
        · exact createInstance_pres ih st svc h
/-! ## Claim C1: activities page clamping -/

/-- C1, counterexample: `fetchActivities` called with `page=7`, `limit=20`
(and a successfully answering events endpoint) returns a view model whose
`page` field is `7`, which exceeds the page ceiling
`totalPages = ceil(120/20) = 6` — the clamp is applied only to the
outbound request, not to the returned `page`. -/
theorem fetchActivities_page7_exceeds_ceiling :
    fetchActivities (fun _ => .ok ([] : List Unit)) ⟨"tok", "id"⟩
        (some (.int 7)) (some (.int 20)) =
      .ok { activities := [], page := .int 7, totalPages := .int 6, limit := .int 20 } ∧
    jle (.int 7) (.int 6) = false := by
  exact ⟨rfl, rfl⟩

/-- C1, amended: with `limit=20` the `page` parameter *sent to the events
endpoint* never exceeds the ceiling `6`, for every requested page; but the
view model returned by `fetchActivities` carries the raw requested page
(together with the response data, `totalPages` and `limit`) unclamped. -/
theorem activities_clamp_is_on_request_only (user : TokensRecord)
    (page limit : JNum) (data : List Unit) :
    jle (activitiesRequest user page (.int 20)).page (.int 6) = true ∧
    fetchActivities (fun _ => .ok data) user (some page) (some limit) =
      .ok { activities := data, page := page,
            totalPages := jsCeilDiv 120 limit, limit := limit } := by
  constructor
  · have h6 : jsCeilDiv 120 (.int 20) = .int 6 := rfl
    cases page with
    | nan => rfl
    | inf => rfl
    | int p =>
      simp only [activitiesRequest, h6]
      cases hle : jle (JNum.int p) (JNum.int 6) with
      | true => simp [hle]
      | false => simp [hle, jle]
  · rfl

/-! ## Claim C2: controllers and service errors -/

/-- C2: the three `ResourceController` actions call their service without
`await`; when the service fails, the `catch` never fires — `next()` is not
called with the error, the view is rendered with the pending promise, and
the rejection is left unhandled. Evaluated here at a concrete failing
service call for each of `profile`, `activities` and `groups`. -/
theorem resource_actions_drop_service_errors :
    (ResourceController_profile (.error (JsErr.axios 500 "boom") : Except JsErr Unit)).nextErr
        = none ∧
    (ResourceController_profile (.error (JsErr.axios 500 "boom") : Except JsErr Unit)).unhandledRejection
        = some (JsErr.axios 500 "boom") ∧
    (ResourceController_profile (.error (JsErr.axios 500 "boom") : Except JsErr Unit)).rendered
        = some "profile" ∧
    (ResourceController_activities (.error (JsErr.axios 500 "boom") : Except JsErr Unit)).nextErr
        = none ∧
    (ResourceController_activities (.error (JsErr.axios 500 "boom") : Except JsErr Unit)).unhandledRejection
        = some (JsErr.axios 500 "boom") ∧
    (ResourceController_groups (.error (JsErr.axios 500 "boom") : Except JsErr Unit)).nextErr
        = none ∧
    (ResourceController_groups (.error (JsErr.axios 500 "boom") : Except JsErr Unit)).unhandledRejection
        = some (JsErr.axios 500 "boom") := by
  exact ⟨rfl, rfl, rfl, rfl, rfl, rfl, rfl⟩

/-! ## Claim C3: missing pagination parameters -/

/-- C3: when `GET /activities` carries no `page` / `limit` query
parameters, the controller passes `parseInt(undefined) = NaN` to
`fetchActivities`; since JavaScript default parameters fire only on
`undefined` — not on `NaN` — the events endpoint is queried with
`per_page=NaN, page=NaN` and the view model carries `NaN` everywhere,
instead of the claimed defaults `page=1`, `limit=20`, `totalPages=6`.
Those defaults *do* apply when the arguments are genuinely absent at the
service level (last conjunct), which is what the code's own default
parameter values document as the intent. -/
theorem activities_missing_params_become_nan :
    parseIntJS none = JNum.nan ∧
    activitiesRequest ⟨"tok", "id"⟩ (parseIntJS none) (parseIntJS none) =
      { bearer := "tok", per_page := .nan, page := .nan } ∧
    controllerActivitiesCall (fun _ => .ok ([] : List Unit)) ⟨"tok", "id"⟩ none none =
      .ok { activities := [], page := .nan, totalPages := .nan, limit := .nan } ∧
    fetchActivities (fun _ => .ok ([] : List Unit)) ⟨"tok", "id"⟩ none none =
      .ok { activities := [], page := .int 1, totalPages := .int 6, limit := .int 20 } ∧
    JNum.nan ≠ JNum.int 1 := by
  refine ⟨rfl, rfl, rfl, rfl, ?_⟩
  decide

/-! ## Claim C6: the token exchange and the session -/

/-- C6: full characterization of `AuthController.authorize` composed with
`AuthService.authorizeUser`, by case on the token-endpoint outcome: on
failure the session is unchanged, the wrapped error goes to `next()` and
there is no redirect; on success the token payload is stored as the
session's `user` and the response redirects to `/home`. In particular the
`/home` redirect happens exactly when the exchange succeeds. -/
theorem authorize_session_and_redirect (tokenEndpoint : Except JsErr TokensRecord)
    (session : Session) :
    match tokenEndpoint with
    | .error e =>
      AuthController_authorize (authorizeUser tokenEndpoint) session =
        (session,
         { rendered := none, redirected := none,
           nextErr := some (convertToHttpError (.httpErrorOf e)),
           unhandledRejection := none })
    | .ok d =>
      AuthController_authorize (authorizeUser tokenEndpoint) session =
        ({ user := some d },
         { rendered := none, redirected := some "/home", nextErr := none,
           unhandledRejection := none }) := by
  cases tokenEndpoint <;> rfl

/-! ## Claim C8: resolving an unregistered name -/

/-- C8: resolving a name with no entry in the `#services` map throws the
`Service not found` error — at every stack depth, for every container
state; it never produces a successful result at all, in particular never a
null/undefined success. -/
theorem resolve_unregistered_is_notFound (fuel : Nat) (st : ContainerState)
    (name : String) (h : mapGet st.services name = none) :
    resolve fuel st name = .error (.notFound name) :=
  resolve_notFound fuel st name h

/-- Witness for C8: the empty container has no `missing` registration and
resolving it fails with the not-found error. -/
theorem resolve_unregistered_is_notFound_witness :
    resolve 3 emptyContainer "missing" = .error (.notFound "missing") :=
  resolve_unregistered_is_notFound 3 emptyContainer "missing" rfl

/-- At zero fuel (exhausted stack) a found registration still fails, with
a stack overflow rather than a result. -/
theorem resolve_zero_found (st : ContainerState) (name : String) (svc : ServiceReg)
    (hs : mapGet st.services name = some svc) :
    resolve 0 st name = .error .stackOverflow := by
  unfold resolve
  rw [hs]

/-! ## Claim C7: singleton stability -/

/-- C7: once a singleton resolution has succeeded, the instance is in the
`#singletons` cache, and a resolution at *any* later point (any positive
stack budget) returns exactly the cached instance with the state
untouched — so every later resolution, iterated any number of times,
returns the identical instance. -/
theorem singleton_resolve_stable (fuel f' : Nat) (st : ContainerState)
    (name : String) (svc : ServiceReg) (v : Value) (st1 : ContainerState)
    (hreg : mapGet st.services name = some svc)
    (hlife : svc.serviceLifetime = some ServiceLifetime.Singleton)
    (hres : resolve fuel st name = .ok (v, st1))
    (hf : f' ≠ 0) :
    mapGet st1.singletons name = some v ∧ resolve f' st1 name = .ok (v, st1) := by
  cases fuel with
  | zero =>
    rw [resolve_zero_found st name svc hreg] at hres
    cases hres
  | succ f =>
    rw [resolve_succ_found f st name svc hreg, if_pos hlife] at hres
    have hkey : mapGet st1.singletons name = some v ∧ st1.services = st.services := by
      unfold resolveSingletonInstance at hres
      split at hres
      · rename_i w hw
        cases hres
        exact ⟨hw, rfl⟩
      · split at hres
        · cases hres
        · rename_i v1 stc hci
          cases hres
          refine ⟨mapGet_set_self _ _ _, ?_⟩
          exact (createInstance_pres (resolve_pres f) st svc hci).services_eq
    obtain ⟨hsing, hserv⟩ := hkey
    refine ⟨hsing, ?_⟩
    cases f' with
    | zero => exact absurd rfl hf
    | succ f2 =>
      have hreg1 : mapGet st1.services name = some svc := by rw [hserv]; exact hreg
      rw [resolve_succ_found f2 st1 name svc hreg1, if_pos hlife]
      unfold resolveSingletonInstance
      rw [hsing]

/-- The container state after registering and resolving the demo singleton
`"a"` (class `A`, no dependencies). -/
def singletonDemoState : ContainerState :=
  { services := [("a", mkReg (.ctor "A") [] (some .Singleton))],
    singletons := [("a", Value.obj 0 "A" [])],
    httpCtx := [], currentRequest := 0, nextId := 1, constructions := 1 }

/-- Witness for C7: registering class `A` as the singleton `"a"` and
resolving it caches the instance; resolving again returns the identical
cached instance and leaves the state unchanged. -/
theorem singleton_resolve_stable_witness :
    mapGet singletonDemoState.singletons "a" = some (Value.obj 0 "A" []) ∧
    resolve 1 singletonDemoState "a" = .ok (Value.obj 0 "A" [], singletonDemoState) :=
  singleton_resolve_stable 2 1 (registerSingleton emptyContainer "a" (.ctor "A") [])
    "a" (mkReg (.ctor "A") [] (some .Singleton)) (Value.obj 0 "A" []) singletonDemoState
    rfl rfl rfl (by decide)

/-! ## Dispatch lemmas by lifetime -/

theorem resolve_succ_singleton (f : Nat) (st : ContainerState) (name : String)
    (svc : ServiceReg) (hs : mapGet st.services name = some svc)
    (hl : svc.serviceLifetime = some ServiceLifetime.Singleton) :
    resolve (f + 1) st name =
      resolveSingletonInstance (fun s n => resolve f s n) st svc name := by
  rw [resolve_succ_found f st name svc hs, if_pos hl]

theorem resolve_succ_scoped (f : Nat) (st : ContainerState) (name : String)
    (svc : ServiceReg) (hs : mapGet st.services name = some svc)
    (hl : svc.serviceLifetime = some ServiceLifetime.Scoped) :
    resolve (f + 1) st name =
      resolveScopedInstance (fun s n => resolve f s n) st svc name := by
  have hns : ¬ svc.serviceLifetime = some ServiceLifetime.Singleton := by
    rw [hl]
    exact fun hc => ServiceLifetime.noConfusion (Option.some.inj hc)
  rw [resolve_succ_found f st name svc hs, if_neg hns, if_pos hl]

theorem resolve_succ_transient (f : Nat) (st : ContainerState) (name : String)
    (svc : ServiceReg) (hs : mapGet st.services name = some svc)
    (h1 : svc.serviceLifetime ≠ some ServiceLifetime.Singleton)
    (h2 : svc.serviceLifetime ≠ some ServiceLifetime.Scoped) :
    resolve (f + 1) st name = createInstance (fun s n => resolve f s n) st svc := by
  rw [resolve_succ_found f st name svc hs, if_neg h1, if_neg h2]

/-! ## Dispatch lemmas for the two caches -/

theorem resolveSingletonInstance_hit {rec : ContainerState → String → SOut}
    (st : ContainerState) (svc : ServiceReg) (name : String) (v : Value)
    (hc : mapGet st.singletons name = some v) :
    resolveSingletonInstance rec st svc name = .ok (v, st) := by
  unfold resolveSingletonInstance
  rw [hc]

theorem resolveSingletonInstance_miss {rec : ContainerState → String → SOut}
    (st : ContainerState) (svc : ServiceReg) (name : String)
    (hc : mapGet st.singletons name = none) :
    resolveSingletonInstance rec st svc name =
      match createInstance rec st svc with
      | .error e => .error e
      | .ok (v, st') => .ok (v, { st' with singletons := mapSet st'.singletons name v }) := by
  unfold resolveSingletonInstance
  rw [hc]

theorem resolveScopedInstance_hit {rec : ContainerState → String → SOut}
    (st : ContainerState) (svc : ServiceReg) (name : String) (v : Value)
    (hc : ctxGet st (scopedKey name) = some v) (hv : truthy v = true) :
    resolveScopedInstance rec st svc name = .ok (v, st) := by
  unfold resolveScopedInstance
  rw [hc]
  simp [hv]

theorem resolveScopedInstance_miss {rec : ContainerState → String → SOut}
    (st : ContainerState) (svc : ServiceReg) (name : String)
    (hc : ctxGet st (scopedKey name) = none) :
    resolveScopedInstance rec st svc name =
      match createInstance rec st svc with
      | .error e => .error e
      | .ok (v', st') => .ok (v', ctxSet st' (scopedKey name) v') := by
  unfold resolveScopedInstance
  rw [hc]

/-- A falsy value cached in the scoped store is treated as absent
(`if (!instance)`): the service is constructed again. -/
theorem resolveScopedInstance_cached_falsy {rec : ContainerState → String → SOut}
    (st : ContainerState) (svc : ServiceReg) (name : String) (v : Value)
    (hc : ctxGet st (scopedKey name) = some v) (hv : truthy v = false) :
    resolveScopedInstance rec st svc name =
      match createInstance rec st svc with
      | .error e => .error e
      | .ok (v', st') => .ok (v', ctxSet st' (scopedKey name) v') := by
  unfold resolveScopedInstance
  rw [hc]
  simp [hv]

/-! ## Claim C10: the falsy-instance asymmetry between the two caches -/

/-- A scoped registration of an arrow factory returning the constant `v`. -/
def regConstScoped (st : ContainerState) (name : String) (v : Value) : ContainerState :=
  registerScoped st name (.arrow 0 (.const v)) []

/-- A singleton registration of an arrow factory returning the constant `v`. -/
def regConstSingleton (st : ContainerState) (name : String) (v : Value) : ContainerState :=
  registerSingleton st name (.arrow 0 (.const v)) []

/-- The state after a scoped construction-and-store of `v` under `name`:
one factory invocation, the result written to the ambient context. -/
def afterScopedCreate (base : ContainerState) (name : String) (v : Value) : ContainerState :=
  ctxSet { base with constructions := base.constructions + 1 } (scopedKey name) v

/-- The state after a singleton construction-and-store of `v` under
`name`: one factory invocation, the result written to `#singletons`. -/
def afterSingletonCreate (base : ContainerState) (name : String) (v : Value) : ContainerState :=
  { base with
    constructions := base.constructions + 1
    singletons := mapSet base.singletons name v }

/-- C10: a scoped service whose construction yields a falsy value is
re-constructed on *every* resolution in the same request context (the
cached falsy value is treated as absent by `if (!instance)`), while a
singleton service with the same falsy-producing definition is constructed
exactly once — `#singletons.has` does not look at truthiness — and every
later resolution returns the cached falsy value with the state unchanged.
The ghost `constructions` counter exposes the factory invocations. -/
theorem falsy_scoped_rebuilt_singleton_cached
    (st : ContainerState) (name : String) (v : Value) (f1 f2 g1 g2 : Nat)
    (hv : truthy v = false)
    (hctx : ctxGet st (scopedKey name) = none)
    (hsing : mapGet st.singletons name = none)
    (hf1 : f1 ≠ 0) (hf2 : f2 ≠ 0) (hg1 : g1 ≠ 0) (hg2 : g2 ≠ 0) :
    resolve f1 (regConstScoped st name v) name =
      .ok (v, afterScopedCreate (regConstScoped st name v) name v) ∧
    (afterScopedCreate (regConstScoped st name v) name v).constructions =
      st.constructions + 1 ∧
    resolve f2 (afterScopedCreate (regConstScoped st name v) name v) name =
      .ok (v, afterScopedCreate (afterScopedCreate (regConstScoped st name v) name v) name v) ∧
    (afterScopedCreate (afterScopedCreate (regConstScoped st name v) name v) name v).constructions =
      st.constructions + 2 ∧
    resolve g1 (regConstSingleton st name v) name =
      .ok (v, afterSingletonCreate (regConstSingleton st name v) name v) ∧
    (afterSingletonCreate (regConstSingleton st name v) name v).constructions =
      st.constructions + 1 ∧
    resolve g2 (afterSingletonCreate (regConstSingleton st name v) name v) name =
      .ok (v, afterSingletonCreate (regConstSingleton st name v) name v) := by
  have hregS : mapGet (regConstScoped st name v).services name =
      some (mkReg (.arrow 0 (.const v)) [] (some .Scoped)) := mapGet_set_self _ _ _
  have hregG : mapGet (regConstSingleton st name v).services name =
      some (mkReg (.arrow 0 (.const v)) [] (some .Singleton)) := mapGet_set_self _ _ _
  refine ⟨?_, rfl, ?_, rfl, ?_, rfl, ?_⟩
  · cases f1 with
    | zero => exact absurd rfl hf1
    | succ k =>
      have hctxS : ctxGet (regConstScoped st name v) (scopedKey name) = none := hctx
      rw [resolve_succ_scoped k _ name _ hregS rfl]
      rw [resolveScopedInstance_miss _ _ _ hctxS]
      rfl
  · cases f2 with
    | zero => exact absurd rfl hf2
    | succ k =>
      have hreg1 : mapGet (afterScopedCreate (regConstScoped st name v) name v).services name =
          some (mkReg (.arrow 0 (.const v)) [] (some .Scoped)) := hregS
      have hctx1 : ctxGet (afterScopedCreate (regConstScoped st name v) name v)
          (scopedKey name) = some v := ctxGet_ctxSet_self _ _ _
      rw [resolve_succ_scoped k _ name _ hreg1 rfl]
      rw [resolveScopedInstance_cached_falsy _ _ _ v hctx1 hv]
      rfl
  · cases g1 with
    | zero => exact absurd rfl hg1
    | succ k =>
      have hsingG : mapGet (regConstSingleton st name v).singletons name = none := hsing
      rw [resolve_succ_singleton k _ name _ hregG rfl]
      rw [resolveSingletonInstance_miss _ _ _ hsingG]
      rfl
  · cases g2 with
    | zero => exact absurd rfl hg2
    | succ k =>
      have hreg1 : mapGet (afterSingletonCreate (regConstSingleton st name v) name v).services name =
          some (mkReg (.arrow 0 (.const v)) [] (some .Singleton)) := hregG
      have hsing1 : mapGet (afterSingletonCreate (regConstSingleton st name v) name v).singletons
          name = some v := mapGet_set_self _ _ _
      rw [resolve_succ_singleton k _ name _ hreg1 rfl]
      exact resolveSingletonInstance_hit _ _ _ v hsing1

/-- Witness for C10: the falsy value `false` registered at `"cache"` over
the fresh container — the scoped variant is constructed twice across two
resolutions, the singleton variant once. -/
theorem falsy_scoped_rebuilt_singleton_cached_witness :
    resolve 1 (regConstScoped emptyContainer "cache" (.vbool false)) "cache" =
      .ok (.vbool false,
        afterScopedCreate (regConstScoped emptyContainer "cache" (.vbool false)) "cache"
          (.vbool false)) ∧
    (afterScopedCreate (regConstScoped emptyContainer "cache" (.vbool false)) "cache"
        (.vbool false)).constructions = emptyContainer.constructions + 1 ∧
    resolve 1 (afterScopedCreate (regConstScoped emptyContainer "cache" (.vbool false)) "cache"
        (.vbool false)) "cache" =
      .ok (.vbool false,
        afterScopedCreate
          (afterScopedCreate (regConstScoped emptyContainer "cache" (.vbool false)) "cache"
            (.vbool false)) "cache" (.vbool false)) ∧
    (afterScopedCreate
        (afterScopedCreate (regConstScoped emptyContainer "cache" (.vbool false)) "cache"
          (.vbool false)) "cache" (.vbool false)).constructions =
      emptyContainer.constructions + 2 ∧
    resolve 1 (regConstSingleton emptyContainer "cache" (.vbool false)) "cache" =
      .ok (.vbool false,
        afterSingletonCreate (regConstSingleton emptyContainer "cache" (.vbool false)) "cache"
          (.vbool false)) ∧
    (afterSingletonCreate (regConstSingleton emptyContainer "cache" (.vbool false)) "cache"
        (.vbool false)).constructions = emptyContainer.constructions + 1 ∧
    resolve 1 (afterSingletonCreate (regConstSingleton emptyContainer "cache" (.vbool false))
        "cache" (.vbool false)) "cache" =
      .ok (.vbool false,
        afterSingletonCreate (regConstSingleton emptyContainer "cache" (.vbool false)) "cache"
          (.vbool false)) :=
  falsy_scoped_rebuilt_singleton_cached emptyContainer "cache" (.vbool false) 1 1 1 1
    rfl rfl rfl (by decide) (by decide) (by decide) (by decide)

/-! ## Claim C9: scoped services across request contexts -/

/-- Creating a constructor-defined service yields a fresh object: its
class name is the definition's, its serial is at least the starting
counter and strictly below the resulting counter. -/
theorem createInstance_ctor_fresh {rec : ContainerState → String → SOut}
    (hrec : PresRec rec) (st : ContainerState) (svc : ServiceReg) (cname : String)
    (hdef : svc.definition = .ctor cname) {v : Value} {st' : ContainerState}
    (h : createInstance rec st svc = .ok (v, st')) :
    ∃ id args, v = .obj id cname args ∧ st.nextId ≤ id ∧ id < st'.nextId := by
  unfold createInstance at h
  split at h
  · split at h
    · rename_i n body heq
      rw [hdef] at heq
      cases heq
    · cases h
  · split at h
    · cases h
    · rename_i args stc hds
      split at h
      · rename_i cname2 heq
        rw [hdef] at heq
        cases heq
        cases h
        refine ⟨stc.nextId, args, rfl, ?_, Nat.lt_succ_self _⟩
        exact (resolveDeps_pres hrec svc.dependencies st hds).nextId_le
      · rename_i n body heq
        rw [hdef] at heq
        cases heq

/-- A scoped factory returning the shared primitive `42`, registered on a
container currently serving request context `1`. -/
def sharedScopedDemo : ContainerState :=
  regConstScoped { emptyContainer with currentRequest := 1 } "shared" (.vnum 42)

/-- C9, counterexample: two distinct simulated request contexts (`1`,
then `2`) resolving the same scoped service `"shared"` both receive the
*same* instance — the value `42` — not two distinct ones: a scoped factory
can hand every request the same shared value. -/
theorem scoped_same_instance_across_requests :
    resolve 1 sharedScopedDemo "shared" =
      .ok (.vnum 42, afterScopedCreate sharedScopedDemo "shared" (.vnum 42)) ∧
    resolve 1 (inRequest (afterScopedCreate sharedScopedDemo "shared" (.vnum 42)) 2) "shared" =
      .ok (.vnum 42,
        afterScopedCreate (inRequest (afterScopedCreate sharedScopedDemo "shared" (.vnum 42)) 2)
          "shared" (.vnum 42)) :=
  ⟨rfl, rfl⟩

/-- C9, amended: for a scoped service *defined by a class constructor*
(so that every construction yields a fresh object), two distinct request
contexts receive two distinct instances, and within the first context
every further resolution returns the same instance created by the first
resolution, with the state unchanged. -/
theorem scoped_ctor_distinct_and_stable
    (fuel fuel2 f3 : Nat) (st : ContainerState) (name : String)
    (svc : ServiceReg) (cname : String) (rB : Nat)
    (vA vB : Value) (stA stB : ContainerState)
    (hreg : mapGet st.services name = some svc)
    (hlife : svc.serviceLifetime = some ServiceLifetime.Scoped)
    (hdef : svc.definition = .ctor cname)
    (hA : ctxGetAt st st.currentRequest (scopedKey name) = none)
    (hB : ctxGetAt st rB (scopedKey name) = none)
    (hAB : st.currentRequest ≠ rB)
    (h1 : resolve fuel st name = .ok (vA, stA))
    (h2 : resolve fuel2 (inRequest stA rB) name = .ok (vB, stB))
    (hf3 : f3 ≠ 0) :
    vA ≠ vB ∧ resolve f3 stA name = .ok (vA, stA) := by
  cases fuel with
  | zero =>
    rw [resolve_zero_found st name svc hreg] at h1
    cases h1
  | succ f =>
    rw [resolve_succ_scoped f st name svc hreg hlife] at h1
    have hA' : ctxGet st (scopedKey name) = none := hA
    rw [resolveScopedInstance_miss _ _ _ hA'] at h1
    split at h1
    · cases h1
    · rename_i v1 stc hci
      cases h1
      obtain ⟨idA, argsA, hvA, hgeA, hltA⟩ :=
        createInstance_ctor_fresh (resolve_pres f) st svc cname hdef hci
      have hpresA : Pres st (ctxSet stc (scopedKey name) vA) :=
        Pres.trans (createInstance_pres (resolve_pres f) st svc hci) (pres_ctxSet _ _ _)
      have hstab : resolve f3 (ctxSet stc (scopedKey name) vA) name =
          .ok (vA, ctxSet stc (scopedKey name) vA) := by
        cases f3 with
        | zero => exact absurd rfl hf3
        | succ k3 =>
          have hregA : mapGet (ctxSet stc (scopedKey name) vA).services name = some svc := by
            rw [hpresA.services_eq]
            exact hreg
          rw [resolve_succ_scoped k3 _ name svc hregA hlife]
          refine resolveScopedInstance_hit _ svc name vA (ctxGet_ctxSet_self _ _ _) ?_
          rw [hvA]
          rfl
      refine ⟨?_, hstab⟩
      cases fuel2 with
      | zero =>
        have hregB : mapGet (inRequest (ctxSet stc (scopedKey name) vA) rB).services name =
            some svc := by
          show mapGet (ctxSet stc (scopedKey name) vA).services name = some svc
          rw [hpresA.services_eq]
          exact hreg
        rw [resolve_zero_found _ name svc hregB] at h2
        cases h2
      | succ f2 =>
        have hregB : mapGet (inRequest (ctxSet stc (scopedKey name) vA) rB).services name =
            some svc := by
          show mapGet (ctxSet stc (scopedKey name) vA).services name = some svc
          rw [hpresA.services_eq]
          exact hreg
        rw [resolve_succ_scoped f2 _ name svc hregB hlife] at h2
        have hctxB : ctxGet (inRequest (ctxSet stc (scopedKey name) vA) rB)
            (scopedKey name) = none := by
          show ctxGetAt (ctxSet stc (scopedKey name) vA) rB (scopedKey name) = none
          rw [hpresA.other_ctx rB _ (Ne.symm hAB)]
          exact hB
        rw [resolveScopedInstance_miss _ _ _ hctxB] at h2
        split at h2
        · cases h2
        · rename_i v2 stc2 hci2
          cases h2
          obtain ⟨idB, argsB, hvB, hgeB, hltB⟩ :=
            createInstance_ctor_fresh (resolve_pres f2) _ svc cname hdef hci2
          have hlt : idA < stc.nextId := hltA
          have hge : stc.nextId ≤ idB := hgeB
          rw [hvA, hvB]
          intro hcon
          injection hcon with e1 e2 e3
          omega

/-- The demo container for the amended C9: class `S` registered scoped as
`"s"`, serving request context `1`. -/
def scopedDemoBase : ContainerState :=
  registerScoped { emptyContainer with currentRequest := 1 } "s" (.ctor "S") []

/-- State after request `1` resolved `"s"`. -/
def scopedDemoA : ContainerState :=
  ctxSet { scopedDemoBase with nextId := 1, constructions := 1 } (scopedKey "s")
    (.obj 0 "S" [])

/-- State after request `2` also resolved `"s"`. -/
def scopedDemoB : ContainerState :=
  ctxSet { (inRequest scopedDemoA 2) with nextId := 2, constructions := 2 } (scopedKey "s")
    (.obj 1 "S" [])

/-- Witness for the amended C9: requests `1` and `2` receive the two
distinct instances `S#0` and `S#1`, and re-resolving inside request `1`
returns `S#0` again unchanged. -/
theorem scoped_ctor_distinct_and_stable_witness :
    (Value.obj 0 "S" [] ≠ Value.obj 1 "S" []) ∧
    resolve 1 scopedDemoA "s" = .ok (.obj 0 "S" [], scopedDemoA) :=
  scoped_ctor_distinct_and_stable 1 1 1 scopedDemoBase "s"
    (mkReg (.ctor "S") [] (some .Scoped)) "S" 2 (.obj 0 "S" []) (.obj 1 "S" [])
    scopedDemoA scopedDemoB rfl rfl rfl rfl rfl (by decide) rfl rfl (by decide)

/-! ## Claim C4: overwriting a registration

Two container states are *equivalent* when they are indistinguishable by
every container operation: their registration tables answer every lookup
identically, and all the remaining components are equal. Resolution maps
equivalent states to identical values (and errors) and equivalent result
states. -/

/-- Observational equivalence of container states. -/
structure EquivSt (a b : ContainerState) : Prop where
  services_get : ∀ n, mapGet a.services n = mapGet b.services n
  singletons_eq : a.singletons = b.singletons
  httpCtx_eq : a.httpCtx = b.httpCtx
  request_eq : a.currentRequest = b.currentRequest
  nextId_eq : a.nextId = b.nextId
  constructions_eq : a.constructions = b.constructions

/-- Componentwise relation on resolution results: identical values,
equivalent states (and identical errors). -/
def pairEquiv {γ : Type} (p q : γ × ContainerState) : Prop :=
  p.1 = q.1 ∧ EquivSt p.2 q.2

/-- Lifting a relation over `Except RErr`. -/
def exceptRel {α β : Type} (R : α → β → Prop) :
    Except RErr α → Except RErr β → Prop
  | .error e, .error e' => e = e'
  | .ok x, .ok y => R x y
  | _, _ => False

/-- Relation between two resolution outcomes over equivalent states. -/
def outEquiv (x y : SOut) : Prop := exceptRel pairEquiv x y

/-- Two resolvers sending equivalent states to related outcomes. -/
def RecRel (rec1 rec2 : ContainerState → String → SOut) : Prop :=
  ∀ a b n, EquivSt a b → outEquiv (rec1 a n) (rec2 b n)

theorem outEquiv_ok {x y : Value × ContainerState} (h1 : x.1 = y.1)
    (h2 : EquivSt x.2 y.2) : outEquiv (.ok x) (.ok y) := ⟨h1, h2⟩

theorem exceptRel_pair_cases {γ : Type} {x y : Except RErr (γ × ContainerState)}
    (h : exceptRel pairEquiv x y) :
    (∃ e, x = .error e ∧ y = .error e) ∨
    (∃ v s s', x = .ok (v, s) ∧ y = .ok (v, s') ∧ EquivSt s s') := by
  cases x with
  | error e =>
    cases y with
    | error e2 =>
      have he : e = e2 := h
      left
      exact ⟨e, rfl, by rw [he]⟩
    | ok q => exact (h : False).elim
  | ok p =>
    obtain ⟨v, s⟩ := p
    cases y with
    | error e2 => exact (h : False).elim
    | ok q =>
      obtain ⟨v2, s2⟩ := q
      obtain ⟨hv, hs⟩ := h
      right
      refine ⟨v, s, s2, rfl, ?_, hs⟩
      have hv' : v = v2 := hv
      rw [hv']

theorem outEquiv_cases {x y : SOut} (h : outEquiv x y) :
    (∃ e, x = .error e ∧ y = .error e) ∨
    (∃ v s s', x = .ok (v, s) ∧ y = .ok (v, s') ∧ EquivSt s s') :=
  exceptRel_pair_cases h

theorem EquivSt.ctxGet_eq {a b : ContainerState} (he : EquivSt a b) (k : String) :
    ctxGet a k = ctxGet b k := by
  unfold ctxGet ctxGetAt
  rw [he.httpCtx_eq, he.request_eq]

theorem EquivSt.ctxSet_congr {s s' : ContainerState} (hs : EquivSt s s')
    (k : String) (v : Value) : EquivSt (ctxSet s k v) (ctxSet s' k v) :=
  ⟨hs.services_get, hs.singletons_eq,
   (by show ((s.currentRequest, k), v) :: s.httpCtx = ((s'.currentRequest, k), v) :: s'.httpCtx
       rw [hs.request_eq, hs.httpCtx_eq]),
   hs.request_eq, hs.nextId_eq, hs.constructions_eq⟩

theorem evalBody_congr {rec1 rec2 : ContainerState → String → SOut}
    (hrel : RecRel rec1 rec2) {a b : ContainerState} (he : EquivSt a b)
    (body : FactoryBody) : outEquiv (evalBody rec1 a body) (evalBody rec2 b body) := by
  cases body with
  | const v => exact outEquiv_ok rfl he
  | fresh =>
    refine outEquiv_ok ?_ ?_
    · show Value.obj a.nextId "Object" [] = Value.obj b.nextId "Object" []
      rw [he.nextId_eq]
    · exact ⟨he.services_get, he.singletons_eq, he.httpCtx_eq, he.request_eq,
             (by show a.nextId + 1 = b.nextId + 1; rw [he.nextId_eq]),
             he.constructions_eq⟩
  | resolveName n => exact hrel a b n he

theorem resolveDeps_cons_ok {rec : ContainerState → String → SOut}
    {st st1 : ContainerState} {d : String} {v : Value} (ds : List String)
    (h : rec st d = .ok (v, st1)) :
    resolveDeps rec st (d :: ds) =
      match resolveDeps rec st1 ds with
      | .error e => .error e
      | .ok (vs, st2) => .ok (v :: vs, st2) := by
  simp only [resolveDeps]
  rw [h]

theorem resolveDeps_cons_error {rec : ContainerState → String → SOut}
    {st : ContainerState} {d : String} {e : RErr} (ds : List String)
    (h : rec st d = .error e) :
    resolveDeps rec st (d :: ds) = .error e := by
  simp only [resolveDeps]
  rw [h]

theorem resolveDeps_congr {rec1 rec2 : ContainerState → String → SOut}
    (hrel : RecRel rec1 rec2) :
    ∀ (deps : List String) {a b : ContainerState}, EquivSt a b →
      exceptRel pairEquiv (resolveDeps rec1 a deps) (resolveDeps rec2 b deps) := by
  intro deps
  induction deps with
  | nil =>
    intro a b he
    exact ⟨rfl, he⟩
  | cons d ds ih =>
    intro a b he
    rcases outEquiv_cases (hrel a b d he) with ⟨e, hx, hy⟩ | ⟨v, s, s', hx, hy, hs⟩
    · rw [resolveDeps_cons_error ds hx, resolveDeps_cons_error ds hy]
      exact rfl
    · rw [resolveDeps_cons_ok ds hx, resolveDeps_cons_ok ds hy]
      rcases exceptRel_pair_cases (ih hs) with ⟨e, hx2, hy2⟩ | ⟨vs, t, t', hx2, hy2, ht⟩
      · rw [hx2, hy2]
        exact rfl
      · rw [hx2, hy2]
        exact ⟨rfl, ht⟩

theorem createInstance_congr {rec1 rec2 : ContainerState → String → SOut}
    (hrel : RecRel rec1 rec2) {a b : ContainerState} (he : EquivSt a b)
    (svc : ServiceReg) :
    outEquiv (createInstance rec1 a svc) (createInstance rec2 b svc) := by
  unfold createInstance
  by_cases harrow : svc.isArrowFunction = true
  · rw [if_pos harrow, if_pos harrow]
    cases hdef : svc.definition with
    | arrow n body =>
      refine evalBody_congr hrel ?_ body
      exact ⟨he.services_get, he.singletons_eq, he.httpCtx_eq, he.request_eq, he.nextId_eq,
             (by show a.constructions + 1 = b.constructions + 1; rw [he.constructions_eq])⟩
    | ctor c => exact rfl
  · rw [if_neg harrow, if_neg harrow]
    rcases exceptRel_pair_cases (resolveDeps_congr hrel svc.dependencies he) with
      ⟨e, hx, hy⟩ | ⟨args, s, s', hx, hy, hs⟩
    · rw [hx, hy]
      exact rfl
    · rw [hx, hy]
      cases hdef : svc.definition with
      | ctor cname =>
        refine outEquiv_ok ?_ ?_
        · show Value.obj s.nextId cname args = Value.obj s'.nextId cname args
          rw [hs.nextId_eq]
        · exact ⟨hs.services_get, hs.singletons_eq, hs.httpCtx_eq, hs.request_eq,
                 (by show s.nextId + 1 = s'.nextId + 1; rw [hs.nextId_eq]),
                 (by show s.constructions + 1 = s'.constructions + 1; rw [hs.constructions_eq])⟩
      | arrow n body => exact rfl

theorem resolveSingletonInstance_congr {rec1 rec2 : ContainerState → String → SOut}
    (hrel : RecRel rec1 rec2) {a b : ContainerState} (he : EquivSt a b)
    (svc : ServiceReg) (name : String) :
    outEquiv (resolveSingletonInstance rec1 a svc name)
      (resolveSingletonInstance rec2 b svc name) := by
  cases hc : mapGet a.singletons name with
  | some v =>
    have hc' : mapGet b.singletons name = some v := by
      rw [← he.singletons_eq]
      exact hc
    rw [resolveSingletonInstance_hit a svc name v hc,
        resolveSingletonInstance_hit b svc name v hc']
    exact outEquiv_ok rfl he
  | none =>
    have hc' : mapGet b.singletons name = none := by
      rw [← he.singletons_eq]
      exact hc
    rw [resolveSingletonInstance_miss _ _ _ hc, resolveSingletonInstance_miss _ _ _ hc']
    rcases outEquiv_cases (createInstance_congr hrel he svc) with
      ⟨e, hx, hy⟩ | ⟨v, s, s', hx, hy, hs⟩
    · rw [hx, hy]
      exact rfl
    · rw [hx, hy]
      refine outEquiv_ok rfl ?_
      exact ⟨hs.services_get,
             (by show mapSet s.singletons name v = mapSet s'.singletons name v
                 rw [hs.singletons_eq]),
             hs.httpCtx_eq, hs.request_eq, hs.nextId_eq, hs.constructions_eq⟩

theorem resolveScopedInstance_congr {rec1 rec2 : ContainerState → String → SOut}
    (hrel : RecRel rec1 rec2) {a b : ContainerState} (he : EquivSt a b)
    (svc : ServiceReg) (name : String) :
    outEquiv (resolveScopedInstance rec1 a svc name)
      (resolveScopedInstance rec2 b svc name) := by
  have hmk : ∀ {x y : SOut}, outEquiv x y → outEquiv
      (match x with
       | .error e => .error e
       | .ok (v', s) => .ok (v', ctxSet s (scopedKey name) v'))
      (match y with
       | .error e => .error e
       | .ok (v', s) => .ok (v', ctxSet s (scopedKey name) v')) := by
    intro x y hxy
    rcases outEquiv_cases hxy with ⟨e, hx, hy⟩ | ⟨v, s, s', hx, hy, hs⟩
    · rw [hx, hy]
      exact rfl
    · rw [hx, hy]
      exact outEquiv_ok rfl (hs.ctxSet_congr _ _)
  cases hc : ctxGet a (scopedKey name) with
  | some v =>
    have hc' : ctxGet b (scopedKey name) = some v := by
      rw [← he.ctxGet_eq]
      exact hc
    cases hv : truthy v with
    | true =>
      rw [resolveScopedInstance_hit _ _ _ v hc hv,
          resolveScopedInstance_hit _ _ _ v hc' hv]
      exact outEquiv_ok rfl he
    | false =>
      rw [resolveScopedInstance_cached_falsy _ _ _ v hc hv,
          resolveScopedInstance_cached_falsy _ _ _ v hc' hv]
      exact hmk (createInstance_congr hrel he svc)
  | none =>
    have hc' : ctxGet b (scopedKey name) = none := by
      rw [← he.ctxGet_eq]
      exact hc
    rw [resolveScopedInstance_miss _ _ _ hc, resolveScopedInstance_miss _ _ _ hc']
    exact hmk (createInstance_congr hrel he svc)

/-- Resolution is invariant under observational equivalence of container
states: same value or error, equivalent result states — at every fuel. -/
theorem resolve_congr :
    ∀ fuel, RecRel (fun s n => resolve fuel s n) (fun s n => resolve fuel s n) := by
  intro fuel
  induction fuel with
  | zero =>
    intro a b n he
    cases hs : mapGet a.services n with
    | none =>
      have hs' : mapGet b.services n = none := by
        rw [← he.services_get n]
        exact hs
      show outEquiv (resolve 0 a n) (resolve 0 b n)
      rw [resolve_notFound 0 a n hs, resolve_notFound 0 b n hs']
      exact rfl
    | some svc =>
      have hs' : mapGet b.services n = some svc := by
        rw [← he.services_get n]
        exact hs
      show outEquiv (resolve 0 a n) (resolve 0 b n)
      rw [resolve_zero_found a n svc hs, resolve_zero_found b n svc hs']
      exact rfl
  | succ f ih =>
    intro a b n he
    cases hs : mapGet a.services n with
    | none =>
      have hs' : mapGet b.services n = none := by
        rw [← he.services_get n]
        exact hs
      show outEquiv (resolve (f + 1) a n) (resolve (f + 1) b n)
      rw [resolve_notFound _ a n hs, resolve_notFound _ b n hs']
      exact rfl
    | some svc =>
      have hs' : mapGet b.services n = some svc := by
        rw [← he.services_get n]
        exact hs
      show outEquiv (resolve (f + 1) a n) (resolve (f + 1) b n)
      by_cases h1 : svc.serviceLifetime = some ServiceLifetime.Singleton
      · rw [resolve_succ_singleton f a n svc hs h1, resolve_succ_singleton f b n svc hs' h1]
        exact resolveSingletonInstance_congr ih he svc n
      · by_cases h2 : svc.serviceLifetime = some ServiceLifetime.Scoped
        · rw [resolve_succ_scoped f a n svc hs h2, resolve_succ_scoped f b n svc hs' h2]
          exact resolveScopedInstance_congr ih he svc n
        · rw [resolve_succ_transient f a n svc hs h1 h2,
              resolve_succ_transient f b n svc hs' h1 h2]
          exact createInstance_congr ih he svc

/-- C4, amended: registering under an already-registered name overwrites
the registration — *as long as the name has not been resolved and cached
in between*, the container afterwards behaves, observably, exactly as if
only the most recent registration had ever been made: resolving any name
at any stack budget yields the identical value or error and equivalent
states. (The counterexample shows the necessity of the caveat: an
already-cached singleton instance from the old registration keeps being
served.) -/
theorem reregister_unresolved_behaves_as_latest
    (st : ContainerState) (name : String) (d1 d2 : Definition)
    (deps1 deps2 : List String) (l1 l2 : ServiceLifetime) (fuel : Nat) (n : String) :
    outEquiv
      (resolve fuel (registerWith (registerWith st name d1 deps1 l1) name d2 deps2 l2) n)
      (resolve fuel (registerWith st name d2 deps2 l2) n) := by
  apply resolve_congr fuel
  refine ⟨?_, rfl, rfl, rfl, rfl, rfl⟩
  intro k
  show mapGet (mapSet (mapSet st.services name (mkReg d1 deps1 (some l1)))
      name (mkReg d2 deps2 (some l2))) k =
    mapGet (mapSet st.services name (mkReg d2 deps2 (some l2))) k
  by_cases hk : k = name
  · subst hk
    rw [mapGet_set_self, mapGet_set_self]
  · rw [mapGet_set_ne _ _ _ _ hk, mapGet_set_ne _ _ _ _ hk, mapGet_set_ne _ _ _ _ hk]

/-- A fresh container with class `A` registered as singleton `"a"`. -/
def overwriteDemo0 : ContainerState := registerSingleton emptyContainer "a" (.ctor "A") []

/-- The state after `overwriteDemo0` resolved `"a"` once: instance `A#0`
cached in `#singletons`. -/
def overwriteDemo1 : ContainerState :=
  { overwriteDemo0 with
    singletons := mapSet overwriteDemo0.singletons "a" (.obj 0 "A" [])
    nextId := 1
    constructions := 1 }

/-- C4, counterexample: register singleton `"a"` as class `A`, resolve it
(caching `A#0`), then re-register `"a"` as class `B`. The next resolution
still returns the old `A#0` instance, while a container that only ever
registered `B` returns a `B` instance — so a later resolution does *not*
behave as if only the most recent registration had been made. -/
theorem singleton_cache_survives_reregistration :
    resolve 1 overwriteDemo0 "a" = .ok (.obj 0 "A" [], overwriteDemo1) ∧
    Except.map (fun p => p.1)
      (resolve 1 (registerSingleton overwriteDemo1 "a" (.ctor "B") []) "a") =
      .ok (.obj 0 "A" []) ∧
    Except.map (fun p => p.1)
      (resolve 1 (registerSingleton emptyContainer "a" (.ctor "B") []) "a") =
      .ok (.obj 0 "B" []) ∧
    Value.obj 0 "A" [] ≠ Value.obj 0 "B" [] := by
  refine ⟨rfl, rfl, rfl, ?_⟩
  intro h
  injection h with e1 e2 e3
  exact absurd e2 (by decide)

/-! ## Claim C5: the construction protocol -/

/-- A resolver that looks names up in a fixed environment and leaves the
state untouched — used to observe that dependency resolution is a plain
left-to-right traversal of the declared names. -/
def pureResolve (g : String → Option Value) : ContainerState → String → SOut :=
  fun st n =>
    match g n with
    | some v => .ok (v, st)
    | none => .error (.notFound n)

/-- C5: instance construction follows the registered definition's shape.
A zero- or one-parameter arrow function (exactly the shapes the
`isArrowFunction` check accepts) is invoked as a factory: its body is
evaluated against the bound resolver `rec` that `#createInstance` passes
in as the single argument. Any other definition has each declared
dependency resolved in order and is then invoked with `new` and the
resolved instances as positional arguments. The third part checks,
against a stateless resolver, that dependency resolution is exactly the
in-order traversal (`mapM`) of the declared names. -/
theorem construction_follows_definition
    (rec : ContainerState → String → SOut) (st : ContainerState)
    (deps : List String) (life : Option ServiceLifetime)
    (nparams : Nat) (body : FactoryBody) (cname : String)
    (args : List Value) (st1 : ContainerState)
    (g : String → Option Value) (vs : List Value)
    (hn : nparams ≤ 1)
    (hds : resolveDeps rec st deps = .ok (args, st1))
    (hg : deps.mapM g = some vs) :
    createInstance rec st (mkReg (.arrow nparams body) deps life) =
      evalBody rec { st with constructions := st.constructions + 1 } body ∧
    createInstance rec st (mkReg (.ctor cname) deps life) =
      .ok (.obj st1.nextId cname args,
           { st1 with nextId := st1.nextId + 1, constructions := st1.constructions + 1 }) ∧
    resolveDeps (pureResolve g) st deps = .ok (vs, st) := by
  refine ⟨?_, ?_, ?_⟩
  · have ha : (mkReg (.arrow nparams body) deps life).isArrowFunction = true := by
      simp only [mkReg, isArrowFn, decide_eq_true_eq]
      exact hn
    unfold createInstance
    rw [if_pos ha]
    rfl
  · have ha : ¬ (mkReg (.ctor cname) deps life).isArrowFunction = true := by
      simp [mkReg, isArrowFn]
    have hds' : resolveDeps rec st (mkReg (.ctor cname) deps life).dependencies =
        .ok (args, st1) := hds
    unfold createInstance
    rw [if_neg ha, hds']
    rfl
  · clear hds hn
    induction deps generalizing vs with
    | nil =>
      simp only [List.mapM_nil, pure, Option.some.injEq] at hg
      rw [← hg]
      rfl
    | cons d ds ih =>
      rw [List.mapM_cons] at hg
      cases hgd : g d with
      | none =>
        rw [hgd] at hg
        simp at hg
      | some v =>
        rw [hgd] at hg
        cases hgs : ds.mapM g with
        | none =>
          rw [hgs] at hg
          simp at hg
        | some ws =>
          rw [hgs] at hg
          simp at hg
          subst hg
          have hstep : pureResolve g st d = .ok (v, st) := by
            unfold pureResolve
            rw [hgd]
          rw [resolveDeps_cons_ok ds hstep, ih ws hgs]

/-- Witness for C5: the one-parameter factory and a two-dependency
constructor over the stateless environment `n ↦ vstr n`. -/
theorem construction_follows_definition_witness :
    createInstance (pureResolve (fun n => some (.vstr n))) emptyContainer
        (mkReg (.arrow 1 (.const .vnull)) ["x", "y"] (some .Transient)) =
      evalBody (pureResolve (fun n => some (.vstr n)))
        { emptyContainer with constructions := emptyContainer.constructions + 1 }
        (.const .vnull) ∧
    createInstance (pureResolve (fun n => some (.vstr n))) emptyContainer
        (mkReg (.ctor "C") ["x", "y"] (some .Transient)) =
      .ok (.obj emptyContainer.nextId "C" [.vstr "x", .vstr "y"],
           { emptyContainer with
             nextId := emptyContainer.nextId + 1
             constructions := emptyContainer.constructions + 1 }) ∧
    resolveDeps (pureResolve (fun n => some (.vstr n))) emptyContainer ["x", "y"] =
      .ok ([.vstr "x", .vstr "y"], emptyContainer) :=
  construction_follows_definition (pureResolve (fun n => some (.vstr n))) emptyContainer
    ["x", "y"] (some .Transient) 1 (.const .vnull) "C" [.vstr "x", .vstr "y"]
    emptyContainer (fun n => some (.vstr n)) [.vstr "x", .vstr "y"]
    (by decide) rfl rfl

end OAuthApp
